import Mathlib

/-
Verification development for the DigitalOcean Telegram bot (a Cloudflare
Worker driving the DigitalOcean API from Telegram chat events).

The repository holds several revisions of the same bot; the definitions below
are shallow embeddings of the JavaScript functions named in the doc comments.
The Cloudflare KV namespace `DROPLET_CREATION` is modelled as an association
list, a JavaScript promise that can reject is modelled as `Except String`
(`.error` is a thrown/rejected value), and each remote HTTP interaction is
passed in explicitly as data, so that every function of the source becomes a
pure Lean function of its inputs.
-/

namespace DOBot

/-- Model of the Cloudflare KV namespace `DROPLET_CREATION`: an association
list from string keys to values; lookup returns the first binding. -/
def KV (V : Type) : Type := List (String × V)

/-- KV `get`: the value bound to the key, or `none` when the key is absent. -/
def kvGet {V : Type} (store : KV V) (k : String) : Option V :=
  (List.find? (fun kv => kv.1 == k) store).map (fun kv => kv.2)

/-- KV `put`: bind the key to the value, overwriting any existing binding. -/
def kvPut {V : Type} (store : KV V) (k : String) (v : V) : KV V :=
  (k, v) :: List.filter (fun kv => kv.1 != k) store

/-- KV `delete`: remove the binding for the key (idempotent). -/
def kvDelete {V : Type} (store : KV V) (k : String) : KV V :=
  List.filter (fun kv => kv.1 != k) store

/-- JavaScript `String.prototype.toLowerCase` (ASCII case folding), modelled
on the character list so that it evaluates inside the kernel. -/
def jsToLower (s : String) : String := String.mk (s.data.map Char.toLower)

/-- JavaScript `String.prototype.trim`: strip whitespace from both ends. -/
def jsTrim (s : String) : String :=
  String.mk (((s.data.dropWhile Char.isWhitespace).reverse.dropWhile Char.isWhitespace).reverse)

/-- JavaScript `String.prototype.includes`: `t` occurs as a contiguous
substring of `s`. -/
def strIncludes (s t : String) : Bool :=
  (List.range (s.data.length + 1)).any fun i =>
    List.take t.data.length (List.drop i s.data) == t.data

/-- JavaScript `String.prototype.startsWith`. -/
def strHasPrefix (p s : String) : Bool := List.isPrefixOf p.data s.data

/-- A JavaScript promise result: a fulfilled value or a thrown error. -/
abbrev Js (α : Type) := Except String α

/-! ### Catalog items and the rebuild compatibility filter (claims C4-C6) -/

/-- Catalog image as returned by the DigitalOcean `/v2/images` listing, with
the fields the bot reads: `id`, `name`, `type`, `status`, `min_disk_size`,
`regions`. -/
structure Image where
  id : Nat
  name : String
  type : String
  status : String
  min_disk_size : Nat
  regions : List String
deriving Repr, DecidableEq

/-- The two droplet fields consumed by the rebuild compatibility filter:
`droplet.disk` and `droplet.region.slug`. -/
structure Droplet where
  disk : Nat
  region : String
deriving Repr, DecidableEq

/-- `filterImagesByRegion` (unnamed/part_001 lines 130-135): keep images whose
`regions` list is missing/empty, or contains the region. -/
def filterImagesByRegion (images : List Image) (region : String) : List Image :=
  images.filter fun img =>
    if img.regions = [] then true
    else if region ∈ img.regions then true
    else false

/-- `filterImagesForRebuild` (unnamed/part_001 lines 138-147): keep images that
are available, whose `min_disk_size` does not exceed `droplet.disk`, and whose
`regions` list is empty or contains `droplet.region.slug`; each `if` mirrors
one early-return of the JavaScript predicate. -/
def filterImagesForRebuild (images : List Image) (droplet : Droplet) : List Image :=
  images.filter fun img =>
    if img.status ≠ "available" then false
    else if droplet.disk < img.min_disk_size then false
    else if img.regions ≠ [] ∧ droplet.region ∉ img.regions then false
    else true

/-! ### Marketplace catalog, categorization and search (claims C7-C8) -/

/-- Marketplace (1-click application) catalog item, with the fields read by
`src/src/services/marketplace.js` and `src/src/constants/categories.js`. -/
structure MarketApp where
  id : Nat
  name : String
  slug : String
  description : Option String
  status : String
  min_disk_size : Nat
deriving Repr, DecidableEq

/-- `MARKETPLACE_CATEGORIES.popular.slugs` (src/src/constants/categories.js
lines 12-28). -/
def popularSlugs : List String :=
  ["wordpress-20-04", "docker-20-04", "nodejs-20-04", "mysql-20-04", "mariadb",
   "redis-7-22-04", "gitlab-gitlabenterprise-20-04", "nginx", "lamp-22-04",
   "lemp-22-04", "mean", "mern", "discourse-20-04", "ghost-20-04",
   "nextcloudgmbh-nextcloud"]

/-- The keyword categories of `MARKETPLACE_CATEGORIES`
(src/src/constants/categories.js lines 30-82), in object-insertion order — the
order `Object.entries` iterates them.  The `popular` entry carries no keyword
list and is explicitly skipped by `categorizeApp`, so it does not appear here. -/
def keywordTable : List (String × List String) :=
  [("cms", ["wordpress", "ghost", "joomla", "drupal", "discourse", "microweber"]),
   ("databases", ["mysql", "postgresql", "mongodb", "redis", "mariadb",
     "cassandra", "influxdb", "clickhouse", "questdb", "edgedb"]),
   ("devtools", ["docker", "gitlab", "jenkins", "git", "vscode", "code-server", "coder"]),
   ("webservers", ["nginx", "apache", "lamp", "lemp", "mean", "mern",
     "nodejs", "django", "flask", "rails", "farm"]),
   ("ai", ["jupyter", "pytorch", "tensorflow", "ollama", "deepseek",
     "ai", "ml", "anaconda", "rocm", "vllm"]),
   ("monitoring", ["grafana", "prometheus", "zabbix", "netdata", "uptimekuma", "uptime"]),
   ("messaging", ["mattermost", "rocket.chat", "matrix", "discord", "jitsi"]),
   ("control", ["plesk", "cpanel", "cloudron", "easypanel", "runcloud",
     "ispmanager", "caprover", "coolify"])]

/-- The search text built by `categorizeApp` (categories.js line 90):
lower-cased name, slug and optional description joined by single spaces. -/
def appSearchText (app : MarketApp) : String :=
  jsToLower app.name ++ " " ++ jsToLower app.slug ++ " " ++
    (match app.description with
     | some d => jsToLower d
     | none => "")

/-- `categorizeApp` (src/src/constants/categories.js lines 89-111): the
explicit popular slug allow-list first, else the first keyword category whose
keyword occurs in the search text, else `"other"`. -/
def categorizeApp (app : MarketApp) : String :=
  if popularSlugs.contains app.slug then "popular"
  else
    match keywordTable.find? (fun cat => cat.2.any fun kw => strIncludes (appSearchText app) kw) with
    | some cat => cat.1
    | none => "other"

/-- `searchApps` (src/src/services/marketplace.js lines 92-100):
case-insensitive substring match against name, slug and the optional
description, ORed.  There is no minimum-length check in this function. -/
def searchApps (apps : List MarketApp) (searchTerm : String) : List MarketApp :=
  let term := jsToLower searchTerm
  apps.filter fun app =>
    strIncludes (jsToLower app.name) term || strIncludes (jsToLower app.slug) term ||
      (match app.description with
       | some d => strIncludes (jsToLower d) term
       | none => false)

/-- The user-visible outcome of the marketplace search handler. -/
inductive SearchOutcome where
  | noToken : SearchOutcome
  | noneFound : SearchOutcome
  | results (shown : List MarketApp) (total : Nat) : SearchOutcome
deriving Repr, DecidableEq

/-- `handleSearchQuery` (unnamed/part_000 lines 152-187): after resolving the
API token and the cached app list, the search runs unconditionally — the reply
text is passed to `searchApps` with no minimum-length check — and up to 20
results are shown. -/
def handleSearchQuery (apiToken : Option String) (apps : List MarketApp)
    (searchTerm : String) : SearchOutcome :=
  match apiToken with
  | none => .noToken
  | some _ =>
    let results := searchApps apps searchTerm
    if results = [] then .noneFound
    else .results (results.take 20) results.length

/-- The user-visible outcome of the image search handler. -/
inductive ImageSearchOutcome where
  | tooShort : ImageSearchOutcome
  | noneFound : ImageSearchOutcome
  | results (shown : List Image) : ImageSearchOutcome
deriving Repr, DecidableEq

/-- `MIN_SEARCH_LENGTH` (unnamed/part_001 line 19). -/
def MIN_SEARCH_LENGTH : Nat := 3

/-- `handleImageSearch` (unnamed/part_001 lines 674-713): reject queries
shorter than `MIN_SEARCH_LENGTH`, then match the lower-cased query against the
image *name only*; `images` stands for the list `getImagesByType` returned for
the session's type, and the first `ITEMS_PER_PAGE = 20` matches are shown. -/
def handleImageSearch (images : List Image) (region : String) (query : String) :
    ImageSearchOutcome :=
  if query.length < MIN_SEARCH_LENGTH then .tooShort
  else
    let allImages := filterImagesByRegion images region
    let results := allImages.filter fun img =>
      strIncludes (jsToLower img.name) (jsToLower query)
    if results = [] then .noneFound
    else .results (results.take 20)

/-! ### Confirmation gate: create and rebuild execution (claim C1) -/

/-- Pending rebuild record stored by `confirmRebuild` (unnamed/part_001 line
1043): `JSON.stringify({ dropletId, imageId })`. -/
structure RebuildData where
  dropletId : String
  imageId : String
deriving Repr, DecidableEq

/-- Parsed JSON body of the `POST /droplets/{id}/actions` call: either it
carries `result.action` (with its status) or it does not (`result.message`). -/
inductive ActionResult where
  | action (status : String) : ActionResult
  | err (message : String) : ActionResult
deriving Repr, DecidableEq

/-- The user-visible outcome of `executeRebuild` (which message the handler
edits into the chat). -/
inductive RebuildOutcome where
  | sessionExpired : RebuildOutcome
  | started (status : String) : RebuildOutcome
  | failed (message : String) : RebuildOutcome
deriving Repr, DecidableEq

/-- `executeRebuild` (unnamed/part_001 lines 1054-1075): read the pending
record; if absent report "Session expired"; otherwise issue the rebuild action
(`remote`) and delete the record only in the success branch (`result.action`
present).  On failure the record is left in the store. -/
def executeRebuild (store : KV RebuildData) (sessionId : String)
    (remote : RebuildData → ActionResult) : RebuildOutcome × KV RebuildData :=
  match kvGet store sessionId with
  | none => (.sessionExpired, store)
  | some data =>
    match remote data with
    | .action status => (.started status, kvDelete store sessionId)
    | .err message => (.failed message, store)

/-- Pending creation record stored by `confirmDropletCreation`
(src/src/index.js lines 629-632). -/
structure CreateData where
  name : String
  region : String
  size : String
  image : String
  sshKeyIds : List Nat
deriving Repr, DecidableEq

/-- Parsed JSON body of the `POST /droplets` call: either `result.droplet` is
present (with its name and resolved public IP text) or not (`result.message`). -/
inductive DropletResult where
  | droplet (name ip : String) : DropletResult
  | err (message : String) : DropletResult
deriving Repr, DecidableEq

/-- The user-visible outcome of `createDropletFromKV`. -/
inductive CreateOutcome where
  | sessionExpired : CreateOutcome
  | created (name ip : String) : CreateOutcome
  | failed (message : String) : CreateOutcome
deriving Repr, DecidableEq

/-- `createDropletFromKV` (src/src/index.js lines 643-670, identical logic in
unnamed/part_001 lines 829-856): read the pending record; if absent report
"Session expired"; otherwise issue the creation call and delete the record
only in the success branch (`result.droplet` present). -/
def createDropletFromKV (store : KV CreateData) (creationId : String)
    (remote : CreateData → DropletResult) : CreateOutcome × KV CreateData :=
  match kvGet store creationId with
  | none => (.sessionExpired, store)
  | some data =>
    match remote data with
    | .droplet nm ip => (.created nm ip, kvDelete store creationId)
    | .err message => (.failed message, store)

/-! ### Name entry step (claim C2) -/

/-- Wizard session record stored by `askDropletName` (unnamed/part_001 lines
779-781). -/
structure SessionData where
  region : String
  size : String
  image : String
  defaultName : String
deriving Repr, DecidableEq

/-- What the Rename-reply branch of `handleMessage` does with the entered
text. -/
inductive NameStepOutcome where
  | sessionExpired : NameStepOutcome
  | proceedToConfirm (name region size image : String) : NameStepOutcome
deriving Repr, DecidableEq

/-- The "📝 Rename Droplet" reply branch of `handleMessage` (unnamed/part_001
lines 280-301): load the session named in the replied-to message and pass
`text.trim()` straight to `confirmDropletCreation`.  No character validation
of the entered name is performed anywhere in this branch (the index.js
variant at lines 258-266 likewise forwards the raw text). -/
def handleRenameReply (store : KV SessionData) (sessionId : String) (text : String) :
    NameStepOutcome :=
  match kvGet store sessionId with
  | none => .sessionExpired
  | some data => .proceedToConfirm (jsTrim text) data.region data.size data.image

/-! ### Error propagation out of the handler (claim C3) -/

/-- Region object from `GET /v2/regions`, with the fields the bot reads. -/
structure Region where
  name : String
  slug : String
  available : Bool
deriving Repr, DecidableEq

/-- What the `/create` branch renders when it completes without throwing. -/
inductive CreateCmdView where
  | noTokenMsg : CreateCmdView
  | regionKeyboard (regions : List Region) : CreateCmdView
deriving Repr, DecidableEq

/-- `getUserApiToken` (src/src/index.js lines 118-125): the KV read is wrapped
in try/catch, so a store failure is converted to `null` at the point of the
operation. -/
def getUserApiToken (kvRead : Js (Option String)) : Option String :=
  match kvRead with
  | .error _ => none
  | .ok v => v

/-- `showRegions` (src/src/index.js lines 448-466): no API token gives an
instruction message; otherwise `doApiCall('/regions')` is awaited with no
try/catch, so a rejected call propagates (`.error`). -/
def showRegions (apiToken : Option String) (regionsCall : Js (List Region)) :
    Js CreateCmdView :=
  match apiToken with
  | none => .ok .noTokenMsg
  | some _ =>
    match regionsCall with
    | .error e => .error e
    | .ok regions => .ok (.regionKeyboard (regions.filter (fun r => r.available)))

/-- The `/create` branch of `handleMessage` (src/src/index.js lines 288-289):
it awaits `showRegions` with no surrounding try/catch, and the `fetch` entry
point (lines 35-43) awaits `handleMessage` with no try/catch either, so an
`.error` value here is an exception escaping the whole event-handling task. -/
def handleMessageCreate (kvRead : Js (Option String)) (regionsCall : Js (List Region)) :
    Js CreateCmdView :=
  showRegions (getUserApiToken kvRead) regionsCall

/-! ### Paged catalog fetch and cache (claims C4-C5) -/

/-- Parsed JSON body of one `/v2/images` page: DigitalOcean returns an
`images` array and `meta.total` on success; an HTTP-error body (rate limit,
auth failure, ...) carries neither. -/
structure ImagesResp where
  images : Option (List Image)
  metaTotal : Option Nat
deriving Repr, DecidableEq

/-- Outcome of one page request at the HTTP level: a rejected promise, or a
response with its `ok` flag and parsed JSON body. -/
inductive PageOutcome where
  | reject (e : String) : PageOutcome
  | resp (ok : Bool) (body : ImagesResp) : PageOutcome
deriving Repr, DecidableEq

/-- `doApiCall` (unnamed/part_001 lines 53-64): returns `response.json()`
and never inspects `response.ok`, so the status flag is discarded; only a
rejected promise surfaces as a thrown error. -/
def doApiCallImages : PageOutcome → Js ImagesResp
  | .reject e => .error e
  | .resp _ body => .ok body

/-- `IMAGES_PER_PAGE` (unnamed/part_001 line 21). -/
def IMAGES_PER_PAGE : Nat := 200

/-- `totalPages` as computed by `getAllImages` (unnamed/part_001 lines 81-83):
`Math.ceil(meta.total / IMAGES_PER_PAGE)` when `meta.total` is present and
truthy (non-zero), else it stays at its initial value 1. -/
def imagesTotalPages (metaTotal : Option Nat) : Nat :=
  match metaTotal with
  | some total =>
    if total ≠ 0 then (total + IMAGES_PER_PAGE - 1) / IMAGES_PER_PAGE else 1
  | none => 1

/-- The page loop of `getAllImages` (unnamed/part_001 lines 86-89): await each
remaining page in order and concatenate `pageData.images || []`; a rejected
request aborts the whole loop with that error. -/
def fetchRemainingPages (pageReq : Nat → PageOutcome) (pages : List Nat)
    (init : List Image) : Js (List Image) :=
  pages.foldlM
    (fun acc page =>
      match doApiCallImages (pageReq page) with
      | .error e => .error e
      | .ok pageData => .ok (acc ++ pageData.images.getD []))
    init

/-- The body of `getAllImages`'s try block (unnamed/part_001 lines 77-93):
fetch page 1, compute `totalPages`, then fetch pages `2..totalPages` and
concatenate.  A rejected page request makes the whole run `.error`; an
HTTP-error body just contributes no items (the code never checks
`response.ok`). -/
def getAllImagesRun (pageReq : Nat → PageOutcome) : Js (List Image) :=
  match doApiCallImages (pageReq 1) with
  | .error e => .error e
  | .ok firstPage =>
    fetchRemainingPages pageReq
      (List.range' 2 (imagesTotalPages firstPage.metaTotal - 1))
      (firstPage.images.getD [])

/-- `getAllImages` (unnamed/part_001 lines 67-98), returning the value the
caller receives paired with the cache content after the call: a cache hit
returns the cached list; a successful fresh run writes the full concatenation
with `CACHE_TTL`; any thrown error is caught, nothing is written, and `[]` is
returned. -/
def getAllImages (cache : Option (List Image)) (pageReq : Nat → PageOutcome) :
    List Image × Option (List Image) :=
  match cache with
  | some c => (c, some c)
  | none =>
    match getAllImagesRun pageReq with
    | .ok imgs => (imgs, some imgs)
    | .error _ => ([], none)

/-- `getImagesByType` (unnamed/part_001 lines 112-127) for the cacheable
classes (`os` ↦ `base`, `app` ↦ `application`): fetch all images through the
shared cache and filter to the requested type and `status === 'available'`. -/
def getImagesByType (imgType : String) (cache : Option (List Image))
    (pageReq : Nat → PageOutcome) : List Image × Option (List Image) :=
  let typeFilter :=
    if imgType = "os" then "base" else if imgType = "app" then "application" else imgType
  let r := getAllImages cache pageReq
  (r.1.filter (fun img => img.type == typeFilter && img.status == "available"), r.2)

/-- Parsed JSON body of one `/v2/images?type=application` page as read by
`getAllMarketplaceApps`: the `ok` flag of the response, the `images` array,
and whether `links.pages.next` is present. -/
structure MPResp where
  ok : Bool
  images : Option (List MarketApp)
  hasNext : Bool
deriving Repr, DecidableEq

/-- Outcome of one marketplace page request: rejected, or a response. -/
inductive MPOutcome where
  | reject (e : String) : MPOutcome
  | resp (r : MPResp) : MPOutcome
deriving Repr, DecidableEq

/-- The `while (true)` pagination loop of `getAllMarketplaceApps`
(src/src/services/marketplace.js lines 17-42), with explicit fuel bounding the
number of iterations (`none` means the bound was exhausted before the loop
exited; every theorem below supplies enough fuel).  A rejected request throws;
a non-ok response throws `Failed to fetch marketplace apps`; otherwise the
page's items are appended and the loop continues while a next page is linked
and the page was non-empty. -/
def getAllMarketplaceAppsGo (pageReq : Nat → MPOutcome) :
    Nat → Nat → List MarketApp → Option (Js (List MarketApp))
  | 0, _, _ => none
  | fuel + 1, page, acc =>
    match pageReq page with
    | .reject e => some (.error e)
    | .resp r =>
      if !r.ok then some (.error "Failed to fetch marketplace apps")
      else
        let items := r.images.getD []
        if !r.hasNext || items == [] then some (.ok (acc ++ items))
        else getAllMarketplaceAppsGo pageReq fuel (page + 1) (acc ++ items)

/-- `getAllMarketplaceApps` (src/src/services/marketplace.js lines 12-46):
run the pagination loop from page 1 and filter the concatenation to
`status === 'available'`. -/
def getAllMarketplaceApps (pageReq : Nat → MPOutcome) (fuel : Nat) :
    Option (Js (List MarketApp)) :=
  (getAllMarketplaceAppsGo pageReq fuel 1 []).map
    (fun r => r.map (List.filter (fun app => app.status == "available")))

/-- `getCachedMarketplaceApps` (src/src/services/marketplace.js lines 55-84),
returning the value-or-thrown-error paired with the cache content after the
call: cache read and cache write failures are caught, but the fetch itself is
not awaited inside any try block, so its error propagates and nothing is
written. -/
def getCachedMarketplaceApps (cache : Option (List MarketApp)) (pageReq : Nat → MPOutcome)
    (fuel : Nat) : Option (Js (List MarketApp) × Option (List MarketApp)) :=
  match cache with
  | some c => some (.ok c, some c)
  | none =>
    match getAllMarketplaceApps pageReq fuel with
    | none => none
    | some (.error e) => some (.error e, none)
    | some (.ok apps) => some (.ok apps, some apps)

/-! ### Credential replacement (claim C9) -/

/-- The key prefixes deleted by `clearUserSessions` (unnamed/part_001 line
178). -/
def sessionPrefixes (userId : String) : List String :=
  ["session_" ++ userId ++ "_", "create_" ++ userId ++ "_", "state_" ++ userId,
   "rebuild_" ++ userId ++ "_", "page_" ++ userId ++ "_"]

/-- `clearUserSessions` (unnamed/part_001 lines 176-188): list and delete
every key carrying one of the user's session prefixes; the net effect on the
store is this filter. -/
def clearUserSessions (userId : String) (store : KV String) : KV String :=
  List.filter (fun kv => !(sessionPrefixes userId).any fun p => strHasPrefix p kv.1) store

/-- `saveUserApiToken` (unnamed/part_001 lines 151-165): validate the new
token against `GET /v2/account` (`accountOk` is `testResponse.ok`; a thrown
validation request is caught and also yields `false`).  On failure nothing is
stored; on success all the user's sessions are cleared and then the token is
written under `api_token_{userId}`. -/
def saveUserApiToken (userId apiToken : String) (accountOk : Bool) (store : KV String) :
    Bool × KV String :=
  if !accountOk then (false, store)
  else (true, kvPut (clearUserSessions userId store) ("api_token_" ++ userId) apiToken)

/-! ### Allow-list guard (claim C10) -/

/-- The observable effects a handler run can perform, in order. -/
inductive Effect where
  | telegramSend (chatId : Int) (text : String) : Effect
  | kvOp (key : String) : Effect
  | doApi (endpoint : String) : Effect
deriving Repr, DecidableEq

/-- The fields of an incoming Telegram message the guard reads. -/
structure TgMessage where
  chatId : Int
  fromId : Int
  text : String
deriving Repr, DecidableEq

/-- The access-denied reply text (src/src/index.js line 237). -/
def accessDeniedText : String := "⛔ Access denied. You are not authorized to use this bot."

/-- The guard at the top of `handleMessage` (src/src/index.js lines 230-239,
identically unnamed/part_001 lines 247-256): `allowedUserIds` is the parsed
`ALLOWED_USER_IDS` list and `rest` is the remainder of the handler, which runs
only for allowed senders — the unauthorized branch sends one reply and
returns before any store or API access. -/
def handleMessageGuard (allowedUserIds : List Int) (message : TgMessage)
    (rest : KV String → List Effect × KV String) (store : KV String) :
    List Effect × KV String :=
  if ¬ allowedUserIds.contains message.fromId then
    ([.telegramSend message.chatId accessDeniedText], store)
  else rest store

/-! ### Concrete inputs used by counterexamples and witnesses -/

/-- A sample available base image. -/
def imgU : Image := ⟨11, "Ubuntu 22.04", "base", "available", 10, []⟩

/-- A remote whose first page succeeds, reporting 400 items in total, and
whose second page request fails with an HTTP error response (`ok = false`,
body carrying no `images` array — e.g. a rate-limit rejection). -/
def c4PageReq : Nat → PageOutcome := fun p =>
  if p = 1 then .resp true ⟨some [imgU], some 400⟩
  else .resp false ⟨none, none⟩

/-- The `p`-th page (1-based) of the master list `xs`, with
`IMAGES_PER_PAGE` items per page. -/
def chunkOf (xs : List Image) (p : Nat) : List Image :=
  (xs.drop ((p - 1) * IMAGES_PER_PAGE)).take IMAGES_PER_PAGE

/-! ## Shared lemmas -/

/-- Deleting a key makes it unreadable. -/
theorem kvGet_kvDelete {V : Type} (store : KV V) (k : String) :
    kvGet (kvDelete store k) k = none := by
  have h : List.find? (fun kv => kv.1 == k) (List.filter (fun kv => kv.1 != k) store) = none := by
    rw [List.find?_eq_none]
    intro x hx
    simpa using (List.mem_filter.mp hx).2
  simp [kvGet, kvDelete, h]

/-- A freshly written key reads back its value. -/
theorem kvGet_kvPut_same {V : Type} (store : KV V) (k : String) (v : V) :
    kvGet (kvPut store k v) k = some v := by
  simp [kvGet, kvPut, List.find?]

/-- Filtering a store cannot make an absent key readable. -/
theorem kvGet_filter_of_none {V : Type} (store : KV V) (k : String) (q : String × V → Bool)
    (h : kvGet store k = none) : kvGet (List.filter q store) k = none := by
  simp only [kvGet, Option.map_eq_none'] at h ⊢
  rw [List.find?_eq_none] at h ⊢
  intro x hx
  exact h x (List.mem_filter.mp hx).1

/-- `find?` returns the element at the first index satisfying the predicate. -/
theorem find?_eq_of_first {α : Type} (p : α → Bool) :
    ∀ (l : List α) (i : Nat) (h : i < l.length),
      (∀ j (hj : j < i), p (l.get ⟨j, Nat.lt_trans hj h⟩) = false) →
      p (l.get ⟨i, h⟩) = true → l.find? p = some (l.get ⟨i, h⟩)
  | a :: as, 0, _, _, hat => by
      simpa using List.find?_cons_of_pos (l := as) (by simpa using hat)
  | a :: as, i + 1, h, hbefore, hat => by
      have hpa : p a = false := hbefore 0 (Nat.succ_pos i)
      rw [List.find?_cons_of_neg _ (by simp [hpa])]
      exact find?_eq_of_first p as i (Nat.lt_of_succ_lt_succ h)
        (fun j hj => hbefore (j + 1) (Nat.succ_lt_succ hj)) hat

/-- After `clearUserSessions`, no key carrying one of the user's session
prefixes is readable. -/
theorem kvGet_clearUserSessions {uid k : String} (store : KV String)
    (h : (sessionPrefixes uid).any (fun p => strHasPrefix p k) = true) :
    kvGet (clearUserSessions uid store) k = none := by
  have hfind : List.find? (fun kv => kv.1 == k)
      (List.filter (fun kv => !(sessionPrefixes uid).any fun p => strHasPrefix p kv.1) store) =
        none := by
    rw [List.find?_eq_none]
    intro x hx hbeq
    have hkeep := (List.mem_filter.mp hx).2
    have hx1 : x.1 = k := by simpa using hbeq
    rw [hx1] at hkeep
    simp [h] at hkeep
  simp [kvGet, clearUserSessions, hfind]

/-- The credential key `api_token_{uid}` never carries a session prefix
(each prefix starts with a different character). -/
theorem tokenKey_not_session_prefixed (uid : String) :
    (sessionPrefixes uid).any (fun p => strHasPrefix p ("api_token_" ++ uid)) = false := by
  have h1 : "session_".data = ['s','e','s','s','i','o','n','_'] := rfl
  have h2 : "create_".data = ['c','r','e','a','t','e','_'] := rfl
  have h3 : "state_".data = ['s','t','a','t','e','_'] := rfl
  have h4 : "rebuild_".data = ['r','e','b','u','i','l','d','_'] := rfl
  have h5 : "page_".data = ['p','a','g','e','_'] := rfl
  have h6 : "api_token_".data = ['a','p','i','_','t','o','k','e','n','_'] := rfl
  simp [sessionPrefixes, strHasPrefix, String.data_append, h1, h2, h3, h4, h5, h6,
    List.isPrefixOf]

/-- When every requested page succeeds and serves its chunk of the master
list, the page loop succeeds with the plain concatenation. -/
theorem fetchRemainingPages_ok (pageReq : Nat → PageOutcome) (xs : List Image) (l : List Nat)
    (h : ∀ p ∈ l, pageReq p = .resp true ⟨some (chunkOf xs p), some xs.length⟩) :
    ∀ init : List Image,
      fetchRemainingPages pageReq l init =
        .ok (l.foldl (fun acc page => acc ++ chunkOf xs page) init) := by
  induction l with
  | nil => intro init; rfl
  | cons p ps ih =>
    intro init
    rw [fetchRemainingPages, List.foldlM_cons, List.foldl_cons, h p (List.mem_cons_self p ps)]
    exact ih (fun q hq => h q (List.mem_cons_of_mem p hq)) (init ++ chunkOf xs p)

/-- Folding chunk-appends over `cnt` consecutive pages starting at `start`
appends exactly the corresponding slice of the master list. -/
theorem foldl_chunks (xs : List Image) :
    ∀ (cnt start : Nat) (acc : List Image), 1 ≤ start →
      (List.range' start cnt).foldl (fun acc page => acc ++ chunkOf xs page) acc =
        acc ++ (xs.drop ((start - 1) * IMAGES_PER_PAGE)).take (cnt * IMAGES_PER_PAGE) := by
  intro cnt
  induction cnt with
  | zero => intro start acc _; simp [List.range']
  | succ n ih =>
    intro start acc hstart
    rw [List.range'_succ, List.foldl_cons]
    rw [ih (start + 1) (acc ++ chunkOf xs start) (by omega)]
    rw [List.append_assoc]
    congr 1
    have hm : (start + 1 - 1) * IMAGES_PER_PAGE =
        (start - 1) * IMAGES_PER_PAGE + IMAGES_PER_PAGE := by
      simp only [IMAGES_PER_PAGE]
      omega
    rw [hm]
    rw [show (n + 1) * IMAGES_PER_PAGE = IMAGES_PER_PAGE + n * IMAGES_PER_PAGE by ring]
    rw [List.take_add]
    congr 1
    rw [List.drop_drop]

/-- When every page serves its chunk of the master list and the reported
total is the master list's length, the whole fetch returns the master list. -/
theorem getAllImagesRun_complete (xs : List Image) (pageReq : Nat → PageOutcome)
    (hreq : ∀ p, pageReq p = .resp true ⟨some (chunkOf xs p), some xs.length⟩) :
    getAllImagesRun pageReq = .ok xs := by
  rw [getAllImagesRun, hreq 1]
  show fetchRemainingPages pageReq
      (List.range' 2 (imagesTotalPages (some xs.length) - 1)) (chunkOf xs 1) = .ok xs
  rw [fetchRemainingPages_ok pageReq xs _ (fun p _ => hreq p)]
  rw [foldl_chunks xs _ 2 _ (by omega)]
  by_cases hN : xs.length = 0
  · have hxs : xs = [] := List.length_eq_zero.mp hN
    subst hxs
    rfl
  · have hT : imagesTotalPages (some xs.length) =
        (xs.length + IMAGES_PER_PAGE - 1) / IMAGES_PER_PAGE := by
      simp [imagesTotalPages, hN]
    rw [hT]
    have hdm := Nat.div_add_mod (xs.length + IMAGES_PER_PAGE - 1) IMAGES_PER_PAGE
    have hmlt : (xs.length + IMAGES_PER_PAGE - 1) % IMAGES_PER_PAGE < IMAGES_PER_PAGE :=
      Nat.mod_lt _ (by simp [IMAGES_PER_PAGE])
    set T := (xs.length + IMAGES_PER_PAGE - 1) / IMAGES_PER_PAGE with hTdef
    have hT1 : 1 ≤ T := by
      rw [hTdef]
      rw [Nat.le_div_iff_mul_le (by simp [IMAGES_PER_PAGE] : 0 < IMAGES_PER_PAGE)]
      simp only [IMAGES_PER_PAGE] at *
      omega
    have hNle : xs.length ≤ T * IMAGES_PER_PAGE := by
      simp only [IMAGES_PER_PAGE] at *
      omega
    have hchunk1 : chunkOf xs 1 = xs.take IMAGES_PER_PAGE := by
      simp [chunkOf]
    rw [hchunk1]
    have harith : (2 - 1) * IMAGES_PER_PAGE = IMAGES_PER_PAGE := by
      simp [IMAGES_PER_PAGE]
    rw [harith]
    rw [show xs.take IMAGES_PER_PAGE ++ (xs.drop IMAGES_PER_PAGE).take ((T - 1) * IMAGES_PER_PAGE) =
        xs.take (IMAGES_PER_PAGE + (T - 1) * IMAGES_PER_PAGE) from (List.take_add xs _ _).symm]
    rw [show IMAGES_PER_PAGE + (T - 1) * IMAGES_PER_PAGE = T * IMAGES_PER_PAGE by
      simp only [IMAGES_PER_PAGE] at *
      omega]
    rw [List.take_of_length_le hNle]

/-- The marketplace page loop, driven by a remote that serves 100-item chunks
of `ys` and links a next page exactly while items remain, returns every
remaining item when given enough fuel. -/
theorem mpGo_complete (ys : List MarketApp) (pr : Nat → MPOutcome)
    (hpr : ∀ p, pr p = .resp ⟨true, some ((ys.drop ((p - 1) * 100)).take 100),
      decide (p * 100 < ys.length)⟩) :
    ∀ (fuel page : Nat) (acc : List MarketApp), 1 ≤ page →
      ys.length ≤ (page + fuel) * 100 →
      getAllMarketplaceAppsGo pr (fuel + 1) page acc =
        some (.ok (acc ++ ys.drop ((page - 1) * 100))) := by
  intro fuel
  induction fuel with
  | zero =>
    intro page acc hpage hlen
    have hnotnext : ¬ page * 100 < ys.length := by omega
    have htake : (ys.drop ((page - 1) * 100)).take 100 = ys.drop ((page - 1) * 100) :=
      List.take_of_length_le (by rw [List.length_drop]; omega)
    simp [getAllMarketplaceAppsGo, hpr, hnotnext, htake]
  | succ n ih =>
    intro page acc hpage hlen
    by_cases hnext : page * 100 < ys.length
    · have hm : (page - 1) * 100 < ys.length := by
        have hlt : (page - 1) * 100 < page * 100 := by omega
        omega
      have hne : (ys.drop ((page - 1) * 100)).take 100 ≠ [] := by
        intro hcontra
        have hlen0 : ((ys.drop ((page - 1) * 100)).take 100).length = 0 := by
          rw [hcontra]; rfl
        rw [List.length_take, List.length_drop] at hlen0
        omega
      have hbeq : (((ys.drop ((page - 1) * 100)).take 100) == ([] : List MarketApp)) = false :=
        beq_eq_false_iff_ne.mpr hne
      have hstep : getAllMarketplaceAppsGo pr (n + 1 + 1) page acc =
          getAllMarketplaceAppsGo pr (n + 1) (page + 1)
            (acc ++ (ys.drop ((page - 1) * 100)).take 100) := by
        simp [getAllMarketplaceAppsGo, hpr, hnext, hbeq]
      rw [hstep, ih (page + 1) (acc ++ (ys.drop ((page - 1) * 100)).take 100)
        (by omega) (by omega)]
      have hdrop : ys.drop ((page + 1 - 1) * 100) = (ys.drop ((page - 1) * 100)).drop 100 := by
        rw [List.drop_drop]
        congr 1
        omega
      rw [hdrop, List.append_assoc, List.take_append_drop]
    · have htake : (ys.drop ((page - 1) * 100)).take 100 = ys.drop ((page - 1) * 100) :=
        List.take_of_length_le (by rw [List.length_drop]; omega)
      simp [getAllMarketplaceAppsGo, hpr, hnext, htake]

/-! ## Claim C1 — confirmation-token consumption -/

/-- Claim C1 counterexample: with a pending rebuild record and a failing
remote call, the first button press does NOT delete the record (the store is
unchanged), and a second press re-runs the mutation and reports the failure
again — not "Session expired".  The claim's "deleted unconditionally before
the remote call, so the second attempt always reports expired" is therefore
false on the code. -/
theorem claim_C1_counterexample :
    (executeRebuild [("rebuild_1_99", ⟨"42", "ubuntu-22-04-x64"⟩)] "rebuild_1_99"
        (fun _ => .err "API error")).2 = [("rebuild_1_99", ⟨"42", "ubuntu-22-04-x64"⟩)] ∧
    (executeRebuild
        (executeRebuild [("rebuild_1_99", ⟨"42", "ubuntu-22-04-x64"⟩)] "rebuild_1_99"
          (fun _ => .err "API error")).2 "rebuild_1_99" (fun _ => .err "API error")).1 =
      .failed "API error" := by
  exact ⟨rfl, rfl⟩

/-- Claim C1 (amended): consuming a pending creation or rebuild record deletes
it only after the remote mutating call returns success; after a successful
consume a second attempt reports "Session expired", while after a failed
mutation the record is retained and a second press re-issues the mutation. -/
theorem claim_C1 (rstore : KV RebuildData) (cstore : KV CreateData) (sid cid : String)
    (remoteR : RebuildData → ActionResult) (remoteC : CreateData → DropletResult)
    (rdata : RebuildData) (cdata : CreateData) (st msg nm ip : String) :
    (kvGet rstore sid = none → executeRebuild rstore sid remoteR = (.sessionExpired, rstore)) ∧
    (kvGet rstore sid = some rdata → remoteR rdata = .action st →
      executeRebuild rstore sid remoteR = (.started st, kvDelete rstore sid) ∧
      (executeRebuild (kvDelete rstore sid) sid remoteR).1 = .sessionExpired) ∧
    (kvGet rstore sid = some rdata → remoteR rdata = .err msg →
      executeRebuild rstore sid remoteR = (.failed msg, rstore)) ∧
    (kvGet cstore cid = none → createDropletFromKV cstore cid remoteC = (.sessionExpired, cstore)) ∧
    (kvGet cstore cid = some cdata → remoteC cdata = .droplet nm ip →
      createDropletFromKV cstore cid remoteC = (.created nm ip, kvDelete cstore cid) ∧
      (createDropletFromKV (kvDelete cstore cid) cid remoteC).1 = .sessionExpired) ∧
    (kvGet cstore cid = some cdata → remoteC cdata = .err msg →
      createDropletFromKV cstore cid remoteC = (.failed msg, cstore)) := by
  refine ⟨?_, ?_, ?_, ?_, ?_, ?_⟩
  · intro h; simp [executeRebuild, h]
  · intro h1 h2
    constructor
    · simp [executeRebuild, h1, h2]
    · simp [executeRebuild, kvGet_kvDelete]
  · intro h1 h2; simp [executeRebuild, h1, h2]
  · intro h; simp [createDropletFromKV, h]
  · intro h1 h2
    constructor
    · simp [createDropletFromKV, h1, h2]
    · simp [createDropletFromKV, kvGet_kvDelete]
  · intro h1 h2; simp [createDropletFromKV, h1, h2]

/-- Witness for claim C1 at a concrete successful rebuild: the record is
deleted on success and the second press reports "Session expired". -/
theorem claim_C1_witness :
    executeRebuild [("rebuild_1_50", ⟨"42", "ubuntu-22-04-x64"⟩)] "rebuild_1_50"
        (fun _ => .action "in-progress") =
      (.started "in-progress", []) ∧
    (executeRebuild [] "rebuild_1_50" (fun _ => .action "in-progress")).1 = .sessionExpired := by
  have h := claim_C1 [("rebuild_1_50", ⟨"42", "ubuntu-22-04-x64"⟩)] [] "rebuild_1_50" ""
    (fun _ => .action "in-progress") (fun _ => .err "") ⟨"42", "ubuntu-22-04-x64"⟩
    ⟨"", "", "", "", []⟩ "in-progress" "" "" ""
  refine ⟨(h.2.1 rfl rfl).1.trans ?_, ?_⟩
  · rfl
  · have h2 := claim_C1 [] [] "rebuild_1_50" "" (fun _ => .action "in-progress")
      (fun _ => .err "") ⟨"42", "ubuntu-22-04-x64"⟩ ⟨"", "", "", "", []⟩ "in-progress" "" "" ""
    rw [h2.1 rfl]

/-! ## Claim C2 — name validation at the NameEntry step -/

/-- Claim C2 counterexample: with a live session, the entered names
`"my_server"` and `"@server"` — both outside the claim's allow-list — are
accepted verbatim and the wizard advances to the confirmation step; no
rejection exists in the code. -/
theorem claim_C2_counterexample :
    handleRenameReply [("session_1_77", ⟨"fra1", "s-1vcpu-1gb", "123456", "droplet-x"⟩)]
        "session_1_77" "my_server" =
      .proceedToConfirm "my_server" "fra1" "s-1vcpu-1gb" "123456" ∧
    handleRenameReply [("session_1_77", ⟨"fra1", "s-1vcpu-1gb", "123456", "droplet-x"⟩)]
        "session_1_77" "@server" =
      .proceedToConfirm "@server" "fra1" "s-1vcpu-1gb" "123456" := by
  exact ⟨by decide, by decide⟩

/-- Claim C2 (amended): no character validation is applied to entered names —
any free-text reply, after trimming, advances the wizard to the confirmation
step with that name; only an expired session stops it. -/
theorem claim_C2 (store : KV SessionData) (sessionId text : String) (data : SessionData) :
    (kvGet store sessionId = none → handleRenameReply store sessionId text = .sessionExpired) ∧
    (kvGet store sessionId = some data →
      handleRenameReply store sessionId text =
        .proceedToConfirm (jsTrim text) data.region data.size data.image) := by
  constructor
  · intro h; simp [handleRenameReply, h]
  · intro h; simp [handleRenameReply, h]

/-- Witness for claim C2: a name containing a space is forwarded (trimmed)
to the confirmation step. -/
theorem claim_C2_witness :
    handleRenameReply [("session_1_77", ⟨"fra1", "s-1vcpu-1gb", "123456", "droplet-x"⟩)]
        "session_1_77" "my server" =
      .proceedToConfirm (jsTrim "my server") "fra1" "s-1vcpu-1gb" "123456" :=
  (claim_C2 [("session_1_77", ⟨"fra1", "s-1vcpu-1gb", "123456", "droplet-x"⟩)]
    "session_1_77" "my server" ⟨"fra1", "s-1vcpu-1gb", "123456", "droplet-x"⟩).2 (by decide)

/-! ## Claim C3 — error propagation out of the event handler -/

/-- Claim C3 counterexample: with a stored credential, a rejected
`/v2/regions` call inside the `/create` branch propagates out of
`handleMessage` to the `fetch` entry point as an uncaught error — contradicting
"no exception or error propagates out of the single event-handling task". -/
theorem claim_C3_counterexample :
    handleMessageCreate (.ok (some "do-token")) (.error "network failure") =
      .error "network failure" := rfl

/-- Claim C3 (amended): failures are caught only at some operations — the
credential read converts a store failure to `null` at the point of the
operation — while others are unguarded: with a credential present, a rejected
region-listing call propagates out of the message handler unchanged. -/
theorem claim_C3 (kvRead : Js (Option String)) (apiToken e : String) :
    (getUserApiToken (.error e) = none) ∧
    (getUserApiToken kvRead = some apiToken →
      handleMessageCreate kvRead (.error e) = .error e) := by
  constructor
  · rfl
  · intro h
    simp [handleMessageCreate, showRegions, h]

/-- Witness for claim C3 at concrete inputs. -/
theorem claim_C3_witness :
    getUserApiToken (.error "kv unavailable") = none ∧
    handleMessageCreate (.ok (some "tok")) (.error "boom") = .error "boom" := by
  have h := claim_C3 (.ok (some "tok")) "tok" "kv unavailable"
  have h2 := claim_C3 (.ok (some "tok")) "tok" "boom"
  exact ⟨h.1, h2.2 rfl⟩

/-! ## Claim C4 — no partial cache writes on page failure -/

/-- Claim C4 counterexample: page 1 succeeds (reporting 400 items) and page 2
fails with an HTTP error response (`ok = false`, error body without an
`images` array).  `getAllImages` never checks `response.ok`, treats the error
body as an empty page, caches the partial one-item collection, and returns it
— not the claimed "nothing cached plus empty-result error". -/
theorem claim_C4_counterexample :
    c4PageReq 2 = .resp false ⟨none, none⟩ ∧
    getAllImages none c4PageReq = ([imgU], some [imgU]) ∧
    (getAllImages none c4PageReq).2 ≠ none ∧
    (getAllImages none c4PageReq).1 ≠ [] := by
  exact ⟨rfl, by decide, by decide, by decide⟩

/-- Claim C4 (amended): a page failure that surfaces as a rejected request
aborts the whole fetch — `getAllImages` catches it, writes nothing to the
cache and returns the empty result, and `getAllMarketplaceApps` (which does
check `response.ok`) aborts with an error on a rejected or non-ok page, with
`getCachedMarketplaceApps` then writing nothing.  Only `getAllImages`'s
failure to check `response.ok` lets an HTTP-error page slip through (see the
counterexample). -/
theorem claim_C4 (pageReq : Nat → PageOutcome) (mpReq : Nat → MPOutcome)
    (e : String) (fuel : Nat) (r : MPResp) :
    (getAllImagesRun pageReq = .error e → getAllImages none pageReq = ([], none)) ∧
    (pageReq 1 = .reject e → getAllImages none pageReq = ([], none)) ∧
    (getAllMarketplaceApps mpReq fuel = some (.error e) →
      getCachedMarketplaceApps none mpReq fuel = some (.error e, none)) ∧
    (mpReq 1 = .reject e → getAllMarketplaceApps mpReq (fuel + 1) = some (.error e)) ∧
    (mpReq 1 = .resp r → r.ok = false →
      getAllMarketplaceApps mpReq (fuel + 1) =
        some (.error "Failed to fetch marketplace apps")) := by
  refine ⟨?_, ?_, ?_, ?_, ?_⟩
  · intro h; simp [getAllImages, h]
  · intro h
    have hrun : getAllImagesRun pageReq = .error e := by
      simp [getAllImagesRun, h, doApiCallImages]
    simp [getAllImages, hrun]
  · intro h; simp [getCachedMarketplaceApps, h]
  · intro h; simp [getAllMarketplaceApps, getAllMarketplaceAppsGo, h, Except.map]
  · intro h hok
    simp [getAllMarketplaceApps, getAllMarketplaceAppsGo, h, hok, Except.map]

/-- Witness for claim C4 at concrete failing remotes. -/
theorem claim_C4_witness :
    getAllImages none (fun _ => .reject "network failure") = ([], none) ∧
    getAllMarketplaceApps (fun _ => .resp ⟨false, none, false⟩) 1 =
      some (.error "Failed to fetch marketplace apps") ∧
    getCachedMarketplaceApps none (fun _ => .resp ⟨false, none, false⟩) 1 =
      some (.error "Failed to fetch marketplace apps", none) := by
  have h := claim_C4 (fun _ => .reject "network failure") (fun _ => .resp ⟨false, none, false⟩)
    "network failure" 0 ⟨false, none, false⟩
  have h2 := claim_C4 (fun _ => .reject "network failure") (fun _ => .resp ⟨false, none, false⟩)
    "Failed to fetch marketplace apps" 1 ⟨false, none, false⟩
  exact ⟨h.2.1 rfl, h.2.2.2.2 rfl rfl, h2.2.2.1 (h.2.2.2.2 rfl rfl)⟩

/-! ## Claim C5 — pagination completeness -/

/-- Claim C5 (pagination completeness): when the remote serves the master
collection `xs` in `IMAGES_PER_PAGE`-sized chunks with `meta.total` equal to
its length and no page fails, `getAllImages` pages through using the reported
total and returns exactly the master list — every item once, duplicates never
introduced — and `getImagesByType` (the listByClass entry point) returns it
filtered to the class's type flag and `status === 'available'`; in particular
when every item is an available item of the class it returns all N items.
The marketplace variant, which pages by next-page links, likewise returns its
whole collection filtered to availability. -/
theorem claim_C5 (xs : List Image) (ys : List MarketApp)
    (pageReq : Nat → PageOutcome) (pr : Nat → MPOutcome) (fuel : Nat)
    (hreq : ∀ p, pageReq p = .resp true ⟨some (chunkOf xs p), some xs.length⟩)
    (hpr : ∀ p, pr p = .resp ⟨true, some ((ys.drop ((p - 1) * 100)).take 100),
      decide (p * 100 < ys.length)⟩)
    (hfuel : ys.length ≤ (1 + fuel) * 100) :
    (getAllImages none pageReq = (xs, some xs)) ∧
    (xs.Nodup → (getAllImages none pageReq).1.Nodup) ∧
    (getImagesByType "os" none pageReq =
      (xs.filter (fun img => img.type == "base" && img.status == "available"), some xs)) ∧
    ((∀ img ∈ xs, img.type = "base" ∧ img.status = "available") →
      (getImagesByType "os" none pageReq).1 = xs) ∧
    (getAllMarketplaceApps pr (fuel + 1) =
      some (.ok (ys.filter (fun app => app.status == "available")))) := by
  have hrun := getAllImagesRun_complete xs pageReq hreq
  have hga : getAllImages none pageReq = (xs, some xs) := by
    simp [getAllImages, hrun]
  refine ⟨hga, ?_, ?_, ?_, ?_⟩
  · intro hnd; rw [hga]; exact hnd
  · simp [getImagesByType, hga]
  · intro hall
    simp only [getImagesByType, hga]
    rw [List.filter_eq_self.mpr]
    intro a ha
    have hq := hall a ha
    simp [hq.1, hq.2]
  · have hgo := mpGo_complete ys pr hpr fuel 1 [] (by omega) (by omega)
    simp only [show (1 : Nat) - 1 = 0 from rfl, Nat.zero_mul, List.drop_zero,
      List.nil_append] at hgo
    simp [getAllMarketplaceApps, hgo, Except.map]

/-- Sample two-item image catalog for the C5 witness. -/
def c5xs : List Image := [imgU, ⟨12, "Debian 12", "base", "available", 10, []⟩]

/-- Sample marketplace catalog (one available, one retired) for the C5
witness. -/
def c5ys : List MarketApp :=
  [⟨1, "WordPress", "wordpress-20-04", none, "available", 25⟩,
   ⟨2, "Old", "old", none, "retired", 10⟩]

/-- Witness for claim C5 at concrete single-page catalogs. -/
theorem claim_C5_witness :
    getAllImages none (fun p => .resp true ⟨some (chunkOf c5xs p), some c5xs.length⟩) =
      (c5xs, some c5xs) ∧
    getAllMarketplaceApps
        (fun p => .resp ⟨true, some ((c5ys.drop ((p - 1) * 100)).take 100),
          decide (p * 100 < c5ys.length)⟩) 1 =
      some (.ok [⟨1, "WordPress", "wordpress-20-04", none, "available", 25⟩]) := by
  have h := claim_C5 c5xs c5ys
    (fun p => .resp true ⟨some (chunkOf c5xs p), some c5xs.length⟩)
    (fun p => .resp ⟨true, some ((c5ys.drop ((p - 1) * 100)).take 100),
      decide (p * 100 < c5ys.length)⟩)
    0 (fun _ => rfl) (fun _ => rfl) (by decide)
  have hfilter : List.filter (fun app => app.status == "available") c5ys =
      [⟨1, "WordPress", "wordpress-20-04", none, "available", 25⟩] := by decide
  exact ⟨h.1, h.2.2.2.2.trans (by rw [hfilter])⟩

/-! ## Claim C6 — rebuild compatibility filter -/

/-- Claim C6: `filterImagesForRebuild` keeps exactly the images that are
available, whose minimum disk fits the droplet, and whose region list is empty
or contains the droplet's region; in particular on a 20 GB droplet in
`"fra1"`, any image needing more disk or excluding the region is dropped. -/
theorem claim_C6 (images : List Image) (droplet : Droplet) (img : Image) :
    (img ∈ filterImagesForRebuild images droplet ↔
      img ∈ images ∧ img.status = "available" ∧ img.min_disk_size ≤ droplet.disk ∧
        (img.regions = [] ∨ droplet.region ∈ img.regions)) ∧
    (droplet.disk = 20 → droplet.region = "fra1" →
      (20 < img.min_disk_size ∨ (img.regions ≠ [] ∧ "fra1" ∉ img.regions)) →
      img ∉ filterImagesForRebuild images droplet) := by
  have hmain : img ∈ filterImagesForRebuild images droplet ↔
      img ∈ images ∧ img.status = "available" ∧ img.min_disk_size ≤ droplet.disk ∧
        (img.regions = [] ∨ droplet.region ∈ img.regions) := by
    simp only [filterImagesForRebuild, List.mem_filter]
    constructor
    · rintro ⟨hm, hp⟩
      split_ifs at hp with h1 h2 h3
      push_neg at h1 h3
      refine ⟨hm, h1, by omega, ?_⟩
      by_cases hre : img.regions = []
      · exact Or.inl hre
      · exact Or.inr (h3 hre)
    · rintro ⟨hm, h1, h2, h3⟩
      refine ⟨hm, ?_⟩
      split_ifs with g1 g2 g3
      · exact absurd h1 g1
      · omega
      · tauto
      · rfl
  refine ⟨hmain, ?_⟩
  intro hd hr hbad hmem
  rcases hmain.mp hmem with ⟨-, -, hdisk, hreg⟩
  rcases hbad with hb | ⟨hne, hnotin⟩
  · omega
  · rw [hr] at hreg; tauto

/-- Witness for claim C6: an available image requiring 25 GB is excluded for
a 20 GB droplet in `"fra1"`. -/
theorem claim_C6_witness :
    (⟨5, "Big", "base", "available", 25, []⟩ : Image) ∉
      filterImagesForRebuild [⟨5, "Big", "base", "available", 25, []⟩] ⟨20, "fra1"⟩ := by
  intro h
  exact (claim_C6 _ _ _).2 rfl rfl (Or.inl (by norm_num)) h

/-! ## Claim C7 — deterministic categorization -/

/-- Claim C7: `categorizeApp` depends only on the item's name, slug and
description (determinism under the fixed rule table); an item whose slug is on
the popular allow-list is classified `"popular"` even if keywords also match;
an item matching no rule is `"other"`; and otherwise the first keyword
category in table order that matches wins. -/
theorem claim_C7 (app : MarketApp) :
    (∀ b : MarketApp, b.name = app.name → b.slug = app.slug → b.description = app.description →
      categorizeApp b = categorizeApp app) ∧
    (app.slug ∈ popularSlugs → categorizeApp app = "popular") ∧
    (app.slug ∉ popularSlugs →
      (∀ cat ∈ keywordTable, ∀ kw ∈ cat.2, strIncludes (appSearchText app) kw = false) →
      categorizeApp app = "other") ∧
    (∀ i (h : i < keywordTable.length),
      app.slug ∉ popularSlugs →
      (∀ cat ∈ keywordTable.take i, ∀ kw ∈ cat.2,
        strIncludes (appSearchText app) kw = false) →
      (keywordTable.get ⟨i, h⟩).2.any (fun kw => strIncludes (appSearchText app) kw) = true →
      categorizeApp app = (keywordTable.get ⟨i, h⟩).1) := by
  refine ⟨?_, ?_, ?_, ?_⟩
  · intro b h1 h2 h3
    simp only [categorizeApp, appSearchText, h1, h2, h3]
  · intro h
    rw [categorizeApp, if_pos]
    simpa [List.contains] using h
  · intro hpop hnone
    rw [categorizeApp, if_neg (by simpa [List.contains] using hpop)]
    rw [List.find?_eq_none.mpr]
    intro cat hcat
    simp only [List.any_eq_true]
    rintro ⟨kw, hkw, hinc⟩
    exact absurd hinc (by simp [hnone cat hcat kw hkw])
  · intro i h hpop hbefore hat
    rw [categorizeApp, if_neg (by simpa [List.contains] using hpop)]
    rw [find?_eq_of_first _ keywordTable i h ?_ hat]
    intro j hj
    have hmem : keywordTable.get ⟨j, Nat.lt_trans hj h⟩ ∈ keywordTable.take i := by
      have h2 : j < (keywordTable.take i).length := by
        simp [List.length_take]
        omega
      have heq : (keywordTable.take i).get ⟨j, h2⟩ =
          keywordTable.get ⟨j, Nat.lt_trans hj h⟩ := by
        simp [List.get_eq_getElem, List.getElem_take]
      rw [← heq]
      exact List.get_mem _ _ h2
    simp only [List.any_eq_false]
    intro kw hkw
    simp [hbefore _ hmem kw hkw]

/-- Witness for claim C7: `wordpress-20-04` is popular although it matches the
cms keywords; an app matching nothing is `"other"`; an app whose text matches
both the databases and webservers keyword groups gets the earlier category. -/
theorem claim_C7_witness :
    categorizeApp ⟨1, "WordPress", "wordpress-20-04", none, "available", 25⟩ = "popular" ∧
    categorizeApp ⟨2, "Foo", "zzz", none, "available", 25⟩ = "other" ∧
    categorizeApp ⟨3, "MySQL on NGINX", "custom-stack", none, "available", 25⟩ = "databases" := by
  refine ⟨(claim_C7 _).2.1 (by decide), (claim_C7 _).2.2.1 (by decide) (by decide), ?_⟩
  have h := (claim_C7 ⟨3, "MySQL on NGINX", "custom-stack", none, "available", 25⟩).2.2.2
    1 (by decide) (by decide) (by decide) (by decide)
  exact h

/-! ## Claim C8 — search semantics and the minimum-length rule -/

/-- Claim C8 counterexample: the marketplace search path executes a 2-character
term — shorter than the claimed minimum of 3 — and returns results instead of
rejecting it before the search runs. -/
theorem claim_C8_counterexample :
    ("ab" : String).length < 3 ∧
      handleSearchQuery (some "tok") [⟨1, "abc", "s", none, "available", 10⟩] "ab" =
        .results [⟨1, "abc", "s", none, "available", 10⟩] 1 := by
  constructor
  · decide
  · decide

/-- Claim C8 (amended): `searchApps` returns exactly the items whose name,
slug, or description contains the term case-insensitively, with no
minimum-length restriction on that path; the 3-character minimum is enforced
only by the image-search handler, which matches the term against the name
field only. -/
theorem claim_C8 :
    (∀ (apps : List MarketApp) (t : String) (x : MarketApp),
      x ∈ searchApps apps t ↔ x ∈ apps ∧
        (strIncludes (jsToLower x.name) (jsToLower t) = true ∨
         strIncludes (jsToLower x.slug) (jsToLower t) = true ∨
         ∃ d, x.description = some d ∧ strIncludes (jsToLower d) (jsToLower t) = true)) ∧
    (∀ (images : List Image) (region query : String),
      query.length < 3 → handleImageSearch images region query = .tooShort) ∧
    (∀ (images : List Image) (region query : String) (shown : List Image),
      3 ≤ query.length → handleImageSearch images region query = .results shown →
      ∀ img ∈ shown, strIncludes (jsToLower img.name) (jsToLower query) = true) := by
  refine ⟨?_, ?_, ?_⟩
  · intro apps t x
    simp only [searchApps, List.mem_filter, Bool.or_eq_true]
    cases hd : x.description <;> simp [hd, or_assoc]
  · intro images region query h
    rw [handleImageSearch, if_pos]
    exact h
  · intro images region query shown hlen hres img hmem
    rw [handleImageSearch, if_neg (by simp [MIN_SEARCH_LENGTH]; omega)] at hres
    dsimp only at hres
    split at hres
    · exact absurd hres (by simp)
    · cases hres
      have hmem2 := List.mem_of_mem_take hmem
      exact (List.mem_filter.mp hmem2).2

/-- Witness for claim C8: a slug-only match is found by `searchApps`; the
image search rejects `"ab"`; a successful image search implies a name match. -/
theorem claim_C8_witness :
    (⟨1, "Docker CE", "mydock", none, "available", 10⟩ : MarketApp) ∈
        searchApps [⟨1, "Docker CE", "mydock", none, "available", 10⟩] "docker" ∧
    handleImageSearch [] "fra1" "ab" = .tooShort ∧
    strIncludes (jsToLower "Ubuntu 22.04 x64") (jsToLower "ubuntu") = true := by
  refine ⟨?_, claim_C8.2.1 [] "fra1" "ab" (by decide), ?_⟩
  · exact (claim_C8.1 _ _ _).mpr ⟨by decide, Or.inl (by decide)⟩
  · exact claim_C8.2.2 [⟨7, "Ubuntu 22.04 x64", "base", "available", 10, []⟩] "fra1" "ubuntu"
      [⟨7, "Ubuntu 22.04 x64", "base", "available", 10, []⟩] (by decide) (by decide)
      ⟨7, "Ubuntu 22.04 x64", "base", "available", 10, []⟩ (by decide)

/-! ## Claim C9 — credential replacement cascade -/

/-- Claim C9: replacing the API credential validates it first — on failure
nothing changes; on success the stored result holds the new credential and no
key with any of the operator's session, create, state, rebuild (or page)
prefixes survives. -/
theorem claim_C9 (userId apiToken : String) (store : KV String) (k : String) :
    (saveUserApiToken userId apiToken false store = (false, store)) ∧
    ((saveUserApiToken userId apiToken true store).1 = true ∧
      kvGet (saveUserApiToken userId apiToken true store).2 ("api_token_" ++ userId) =
        some apiToken ∧
      ((sessionPrefixes userId).any (fun p => strHasPrefix p k) = true →
        kvGet (saveUserApiToken userId apiToken true store).2 k = none)) := by
  refine ⟨by simp [saveUserApiToken], by simp [saveUserApiToken],
    by simp [saveUserApiToken, kvGet_kvPut_same], ?_⟩
  intro hk
  have hne : ("api_token_" ++ userId) ≠ k := by
    intro he
    rw [← he] at hk
    rw [tokenKey_not_session_prefixed userId] at hk
    exact Bool.false_ne_true hk
  simp only [saveUserApiToken, Bool.not_true, Bool.false_eq_true, if_false, kvPut, kvGet]
  rw [List.find?_cons_of_neg _ (by simpa using hne)]
  exact kvGet_filter_of_none _ _ _ (kvGet_clearUserSessions store hk)

/-- Witness for claim C9: replacing user 7's credential deletes the session
key and stores the new token; a failed validation leaves the store as it was. -/
theorem claim_C9_witness :
    saveUserApiToken "7" "NEW" false [("api_token_7", "OLD"), ("session_7_a", "x")] =
      (false, [("api_token_7", "OLD"), ("session_7_a", "x")]) ∧
    kvGet (saveUserApiToken "7" "NEW" true [("api_token_7", "OLD"), ("session_7_a", "x")]).2
        ("api_token_" ++ "7") = some "NEW" ∧
    kvGet (saveUserApiToken "7" "NEW" true [("api_token_7", "OLD"), ("session_7_a", "x")]).2
        "session_7_a" = none := by
  have h := claim_C9 "7" "NEW" [("api_token_7", "OLD"), ("session_7_a", "x")] "session_7_a"
  exact ⟨h.1, h.2.2.1, h.2.2.2 (by decide)⟩

/-! ## Claim C10 — allow-list guard -/

/-- Claim C10: for a sender outside the allow-list, `handleMessage` emits
exactly one access-denied reply and leaves the store untouched — whatever the
rest of the handler would do — so such a message performs no KV read or write
and no DigitalOcean API call. -/
theorem claim_C10 (allowedUserIds : List Int) (message : TgMessage)
    (rest : KV String → List Effect × KV String) (store : KV String)
    (h : message.fromId ∉ allowedUserIds) :
    handleMessageGuard allowedUserIds message rest store =
      ([.telegramSend message.chatId accessDeniedText], store) := by
  rw [handleMessageGuard, if_pos]
  simpa [List.contains] using h

/-- Witness for claim C10: sender 999 is not in the allow-list; the handler
answers with the denial and the store — including the credential — is
unchanged, even though the rest of the handler would have read the store
and called the API. -/
theorem claim_C10_witness :
    handleMessageGuard [123, 456] ⟨9, 999, "/droplets"⟩
        (fun store => ([.kvOp "api_token_9", .doApi "/droplets"], store))
        [("api_token_9", "tok")] =
      ([.telegramSend 9 accessDeniedText], [("api_token_9", "tok")]) :=
  claim_C10 [123, 456] ⟨9, 999, "/droplets"⟩
    (fun store => ([.kvOp "api_token_9", .doApi "/droplets"], store))
    [("api_token_9", "tok")] (by decide)

end DOBot
